import Mathlib

/-
Verification of the per-frame simulation engine of the arcade defense game
(source: App.tsx `update`, `startGame`, `handleCanvasClick`; types.ts; constants.ts).

Modelling conventions:
- JavaScript numbers are modelled as real numbers (ℝ); Battery ammo counts as ℤ.
- The React refs and setState state are modelled as one explicit `Game` record
  threaded through a pure frame function `update`.  setState updater functions
  are applied sequentially at the point of the call.
- Presentation-only fields (`id` of projectiles, `color` of projectiles,
  `radius` of projectiles, `startPos`, `level`) are omitted where no simulation
  code reads them.  An Explosion's `color` is kept because the collision
  resolver filters on it; a Battery's and City's `id` is kept because the
  launch handler maps over batteries by id.
- The calls to Math.random() in a frame are modelled as an explicit `Rand`
  input: the index used to pick a spawn target, the random x position of the
  spawned threat and its speed jitter.
-/

noncomputable section

namespace Xjsj

structure Point where
  x : ℝ
  y : ℝ

inductive GameMode
  | LOW
  | NORMAL
  | HIGH
  | ULTRA
  | FUTURE
deriving DecidableEq

/-- MODE_CONFIGS speedMult from constants.ts. -/
def speedMult : GameMode → ℝ
  | GameMode.LOW => 1.0
  | GameMode.NORMAL => 1.4
  | GameMode.HIGH => 1.8
  | GameMode.ULTRA => 2.2
  | GameMode.FUTURE => 2.6

/-- MODE_CONFIGS powerMult from constants.ts. -/
def powerMult : GameMode → ℝ
  | GameMode.LOW => 1.0
  | GameMode.NORMAL => 1.1
  | GameMode.HIGH => 1.2
  | GameMode.ULTRA => 1.3
  | GameMode.FUTURE => 1.4

inductive Status
  | START
  | PLAYING
  | WON
  | LOST
deriving DecidableEq

def GAME_WIDTH : ℝ := 800

def GAME_HEIGHT : ℝ := 600

def WIN_SCORE : ℝ := 1000

def COLORS_PLAYER_MISSILE : String := "#00ffcc"

def COLORS_ENEMY_MISSILE : String := "#ff4444"

def COLORS_EXPLOSION : String := "rgba(255, 255, 255, 0.8)"

/-- A player Missile or an enemy Threat (types.ts Missile / Enemy share this
field set; both always carry a target). -/
structure Proj where
  pos : Point
  target : Point
  speed : ℝ
  active : Bool

structure Explosion where
  pos : Point
  radius : ℝ
  maxRadius : ℝ
  growthRate : ℝ
  isShrinking : Bool
  color : String
  active : Bool

structure Battery where
  id : String
  pos : Point
  missiles : ℤ
  maxMissiles : ℤ
  destroyed : Bool

structure City where
  id : String
  pos : Point
  destroyed : Bool

structure Game where
  score : ℝ
  mode : GameMode
  status : Status
  batteries : List Battery
  cities : List City
  missiles : List Proj
  enemies : List Proj
  explosions : List Explosion
  spawnTimer : ℝ

def INITIAL_BATTERIES : List Battery :=
  [ { id := "b1", pos := { x := 100, y := 560 }, missiles := 20, maxMissiles := 20, destroyed := false },
    { id := "b2", pos := { x := 400, y := 560 }, missiles := 40, maxMissiles := 40, destroyed := false },
    { id := "b3", pos := { x := 700, y := 560 }, missiles := 20, maxMissiles := 20, destroyed := false } ]

def INITIAL_CITIES : List City :=
  [ { id := "c1", pos := { x := 200, y := 570 }, destroyed := false },
    { id := "c2", pos := { x := 300, y := 570 }, destroyed := false },
    { id := "c3", pos := { x := 500, y := 570 }, destroyed := false },
    { id := "c4", pos := { x := 600, y := 570 }, destroyed := false } ]

/-- startGame: full session reset, ignoring all prior state (App.tsx lines 50-60). -/
def startGame (_g : Game) (mode : GameMode) : Game :=
  { score := 0
    mode := mode
    status := Status.PLAYING
    batteries := INITIAL_BATTERIES.map (fun b => { b with missiles := b.maxMissiles, destroyed := false })
    cities := INITIAL_CITIES.map (fun c => { c with destroyed := false })
    missiles := []
    enemies := []
    explosions := []
    spawnTimer := 0 }

/-- Battery selection fold of handleCanvasClick: keep the closest non-destroyed
battery with ammo, by horizontal distance; `none` plays the role of the
initial Infinity comparison (every distance beats it). -/
def selectStep (tx : ℝ) (acc : Option (Battery × ℝ)) (b : Battery) : Option (Battery × ℝ) :=
  if b.destroyed = false ∧ 0 < b.missiles then
    let dist := |b.pos.x - tx|
    match acc with
    | none => some (b, dist)
    | some best => if dist < best.2 then some (b, dist) else acc
  else acc

def selectBest (bs : List Battery) (tx : ℝ) : Option (Battery × ℝ) :=
  bs.foldl (selectStep tx) none

/-- handleCanvasClick lines 84-114: pick the nearest eligible battery, decrement
its ammo by id, and create a missile from its position toward the target. -/
def handleClick (bs : List Battery) (mode : GameMode) (t : Point) : List Battery × Option Proj :=
  match selectBest bs t.x with
  | none => (bs, none)
  | some best =>
      (bs.map (fun pb => if pb.id = best.1.id then { pb with missiles := pb.missiles - 1 } else pb),
       some { pos := best.1.pos, target := t, speed := 5 * speedMult mode, active := true })

/-- Spawn interval as computed by the code (App.tsx line 136): real division,
no floor, so this equals max 500 (2000 - score). -/
def spawnInterval (score : ℝ) : ℝ := max 500 (2000 - score / 100 * 100)

/-- Modelled from the spec: the spec's spawn-interval formula
`max(500, 2000 - floor(score / 100) * 100)`, with an integer floor of
score/100.  Present only to compare with the code's `spawnInterval`, which
divides without flooring. -/
def specSpawnInterval (score : ℝ) : ℝ := max 500 (2000 - (⌊score / 100⌋ : ℝ) * 100)

/-- The random draws a frame may consume (App.tsx lines 141-147). -/
structure Rand where
  idx : ℕ
  posX : ℝ
  jitter : ℝ

def spawnTargets (cities : List City) (batteries : List Battery) : List Point :=
  (cities.filter (fun c => !c.destroyed)).map City.pos
    ++ (batteries.filter (fun b => !b.destroyed)).map Battery.pos

def spawnedEnemy (mult : ℝ) (r : Rand) (targets : List Point) : Proj :=
  { pos := { x := r.posX, y := -20 }
    target := targets.getD (r.idx % targets.length) { x := 0, y := 0 }
    speed := (0.8 + r.jitter * 0.6) * mult
    active := true }

/-- Spawn scheduler (App.tsx lines 134-153): accumulate delta; when the
accumulator strictly exceeds the interval, reset it to 0 and append a threat
aimed at a random non-destroyed city or battery, skipping the append if that
pool is empty. -/
def spawnPhase (g : Game) (delta : ℝ) (r : Rand) : Game :=
  let timer := g.spawnTimer + delta
  if timer > spawnInterval g.score then
    let targets := spawnTargets g.cities g.batteries
    if targets.length > 0 then
      { g with spawnTimer := 0,
               enemies := g.enemies ++ [spawnedEnemy (speedMult g.mode) r targets] }
    else { g with spawnTimer := 0 }
  else { g with spawnTimer := timer }

/-- Player explosion spawned on missile arrival (App.tsx lines 166-176). -/
def blastPlayer (t : Point) (pm scale : ℝ) : Explosion :=
  { pos := t
    radius := 2
    maxRadius := 96 * pm
    growthRate := 3.0 * scale
    isShrinking := false
    color := COLORS_EXPLOSION
    active := true }

/-- Threat explosion spawned on enemy arrival (App.tsx lines 207-217). -/
def blastEnemy (p : Point) (scale : ℝ) : Explosion :=
  { pos := p
    radius := 2
    maxRadius := 36
    growthRate := 2.4 * scale
    isShrinking := false
    color := COLORS_ENEMY_MISSILE
    active := true }

/-- One player missile step (App.tsx lines 156-181), threading the missile
list built so far and the explosion list. -/
def missileStep (pm scale : ℝ) (acc : List Proj × List Explosion) (m : Proj) :
    List Proj × List Explosion :=
  if m.active = false then (acc.1 ++ [m], acc.2) else
  let dx := m.target.x - m.pos.x
  let dy := m.target.y - m.pos.y
  let dist := Real.sqrt (dx * dx + dy * dy)
  let moveDist := m.speed * scale
  if dist ≤ moveDist ∨ dist = 0 then
    (acc.1 ++ [{ m with active := false }], acc.2 ++ [blastPlayer m.target pm scale])
  else
    (acc.1 ++ [{ m with pos := { x := m.pos.x + dx / dist * moveDist,
                                 y := m.pos.y + dy / dist * moveDist } }], acc.2)

/-- Ground impact on cities (App.tsx lines 195-200): axis-aligned 25 test. -/
def impactCities (cs : List City) (ip : Point) : List City :=
  cs.map (fun c =>
    if |c.pos.x - ip.x| < 25 ∧ |c.pos.y - ip.y| < 25 then { c with destroyed := true } else c)

/-- Ground impact on batteries (App.tsx lines 201-206): axis-aligned 35 test. -/
def impactBatteries (bs : List Battery) (ip : Point) : List Battery :=
  bs.map (fun b =>
    if |b.pos.x - ip.x| < 35 ∧ |b.pos.y - ip.y| < 35 then { b with destroyed := true } else b)

/-- The collision test of App.tsx line 225/229: player-class explosion, still
active, within radius + 10 of the threat. -/
def hitTest (p : Point) (x : Explosion) : Prop :=
  x.color = COLORS_EXPLOSION ∧ x.active = true ∧
    Real.sqrt ((p.x - x.pos.x) * (p.x - x.pos.x) + (p.y - x.pos.y) * (p.y - x.pos.y))
      < x.radius + 10

instance (p : Point) (x : Explosion) : Decidable (hitTest p x) :=
  inferInstanceAs (Decidable (x.color = COLORS_EXPLOSION ∧ x.active = true ∧
    Real.sqrt ((p.x - x.pos.x) * (p.x - x.pos.x) + (p.y - x.pos.y) * (p.y - x.pos.y))
      < x.radius + 10))

/-- Inner collision fold of App.tsx lines 224-235: each matching explosion adds
20 to the score and forces the threat's active flag to false; note that the
threat's own flag is not consulted. -/
def collideStep (p : Point) (acc : ℝ × Bool) (x : Explosion) : ℝ × Bool :=
  if hitTest p x then (acc.1 + 20, false) else acc

/-- State threaded through the enemy pass (cities and batteries via their
setState updaters, the shared explosion list and the score ref). -/
structure ESt where
  cities : List City
  batteries : List Battery
  explosions : List Explosion
  score : ℝ

/-- One enemy step (App.tsx lines 184-236): skip inactive; otherwise arrival
(ground impact at the current position plus threat blast) or motion; then the
collision test of the (possibly moved) enemy against every explosion. -/
def enemyStep (scale : ℝ) (acc : ESt × List Proj) (e : Proj) : ESt × List Proj :=
  let st := acc.1
  let done := acc.2
  if e.active = false then (st, done ++ [e]) else
  let dx := e.target.x - e.pos.x
  let dy := e.target.y - e.pos.y
  let dist := Real.sqrt (dx * dx + dy * dy)
  let moveDist := e.speed * scale
  let step1 : ESt × Proj :=
    if dist ≤ moveDist ∨ dist = 0 then
      ({ st with cities := impactCities st.cities e.pos,
                 batteries := impactBatteries st.batteries e.pos,
                 explosions := st.explosions ++ [blastEnemy e.pos scale] },
       { e with active := false })
    else
      (st, { e with pos := { x := e.pos.x + dx / dist * moveDist,
                             y := e.pos.y + dy / dist * moveDist } })
  let st1 := step1.1
  let e1 := step1.2
  let hit := st1.explosions.foldl (collideStep e1.pos) (st1.score, e1.active)
  ({ st1 with score := hit.1 }, done ++ [{ e1 with active := hit.2 }])

/-- Explosion lifecycle step (App.tsx lines 238-252). -/
def explosionStep (x : Explosion) : Explosion :=
  if x.active = false then x
  else if x.isShrinking = false then
    let r := x.radius + x.growthRate
    if r ≥ x.maxRadius then { x with radius := r, isShrinking := true }
    else { x with radius := r }
  else
    let r := x.radius - x.growthRate * 0.5
    if r ≤ 0 then { x with radius := r, active := false }
    else { x with radius := r }

/-- End-of-frame status check (App.tsx lines 259-271); the enemy and explosion
lists it receives are the pruned ones, so emptiness means no active entity. -/
def checkStatus (score : ℝ) (batteries : List Battery) (enemies : List Proj)
    (explosions : List Explosion) : Status :=
  if score ≥ WIN_SCORE then Status.WON
  else if (batteries.filter (fun b => !b.destroyed)).length = 0
          ∧ enemies.length = 0 ∧ explosions.length = 0 then Status.LOST
  else Status.PLAYING

/-- One frame of the simulation (App.tsx `update`, PLAYING branch), given the
frame's delta time in milliseconds and the frame's random draws. -/
def update (g : Game) (delta : ℝ) (r : Rand) : Game :=
  if g.status ≠ Status.PLAYING then g else
  let scale := delta / 16.67
  let g1 := spawnPhase g delta r
  let mres := g1.missiles.foldl (missileStep (powerMult g1.mode) scale) ([], g1.explosions)
  let eres := g1.enemies.foldl (enemyStep scale)
      ({ cities := g1.cities, batteries := g1.batteries, explosions := mres.2, score := g1.score }, [])
  let st := eres.1
  let exps := (st.explosions.map explosionStep).filter (fun x => x.active)
  let ms := mres.1.filter (fun m => m.active)
  let es := eres.2.filter (fun e => e.active)
  { g1 with score := st.score
            cities := st.cities
            batteries := st.batteries
            missiles := ms
            enemies := es
            explosions := exps
            status := checkStatus st.score st.batteries es exps }

/-! Concrete instances used by counterexamples and witnesses. -/

def rand0 : Rand := { idx := 0, posX := 0, jitter := 0 }

/-- A player-class explosion sitting at (100, 100). -/
def exDouble : Explosion :=
  { pos := { x := 100, y := 100 }, radius := 2, maxRadius := 96, growthRate := 3,
    isShrinking := false, color := COLORS_EXPLOSION, active := true }

/-- A threat at (100, 100) heading far down to (100, 1000) at speed 1. -/
def eSlow : Proj :=
  { pos := { x := 100, y := 100 }, target := { x := 100, y := 1000 }, speed := 1, active := true }

/-- A playing game holding one threat inside two overlapping player blasts. -/
def gDouble : Game :=
  { score := 0, mode := GameMode.LOW, status := Status.PLAYING,
    batteries := INITIAL_BATTERIES, cities := INITIAL_CITIES,
    missiles := [], enemies := [eSlow], explosions := [exDouble, exDouble], spawnTimer := 0 }

/-- A playing game at score 20 with the full initial layout and no entities. -/
def gScore20 : Game :=
  { score := 20, mode := GameMode.LOW, status := Status.PLAYING,
    batteries := INITIAL_BATTERIES, cities := INITIAL_CITIES,
    missiles := [], enemies := [], explosions := [], spawnTimer := 0 }

/-- A playing game at score 0 with the full initial layout and no entities. -/
def gFresh : Game :=
  { score := 0, mode := GameMode.LOW, status := Status.PLAYING,
    batteries := INITIAL_BATTERIES, cities := INITIAL_CITIES,
    missiles := [], enemies := [], explosions := [], spawnTimer := 0 }

/-- A playing game that has already reached the winning score. -/
def gRich : Game :=
  { score := 1000, mode := GameMode.LOW, status := Status.PLAYING,
    batteries := INITIAL_BATTERIES, cities := INITIAL_CITIES,
    missiles := [], enemies := [], explosions := [], spawnTimer := 0 }

/-- Scenario B missile: 50 units from its target, speed 1. -/
def mFar : Proj :=
  { pos := { x := 0, y := 0 }, target := { x := 50, y := 0 }, speed := 1, active := true }

/-- A threat 40 units short of city c1, fast enough to arrive in one step. -/
def eShort : Proj :=
  { pos := { x := 200, y := 530 }, target := { x := 200, y := 570 }, speed := 40, active := true }

/-- Enemy-pass state holding the initial layout and nothing else. -/
def stInitial : ESt :=
  { cities := INITIAL_CITIES, batteries := INITIAL_BATTERIES, explosions := [], score := 0 }

/-- Two structures close enough for one impact to destroy both. -/
def csDemo : List City :=
  [ { id := "d1", pos := { x := 0, y := 0 }, destroyed := false },
    { id := "d2", pos := { x := 10, y := 0 }, destroyed := false } ]

/-- Straight-line distance from a projectile to its target, as the kinematics
step computes it. -/
abbrev projDist (m : Proj) : ℝ :=
  Real.sqrt ((m.target.x - m.pos.x) * (m.target.x - m.pos.x) +
    (m.target.y - m.pos.y) * (m.target.y - m.pos.y))

/-- Frame-normalized move distance: speed * (deltaTimeMs / 16.67). -/
abbrev projMove (m : Proj) (delta : ℝ) : ℝ := m.speed * (delta / 16.67)

/-- The projectile advanced one kinematics step along the unit direction to
its target. -/
abbrev projAdvanced (m : Proj) (delta : ℝ) : Proj :=
  { m with pos := { x := m.pos.x + (m.target.x - m.pos.x) / projDist m * projMove m delta,
                    y := m.pos.y + (m.target.y - m.pos.y) / projDist m * projMove m delta } }

/-- Launch eligibility of a battery: non-destroyed with ammo left. -/
abbrev elig (b : Battery) : Prop := b.destroyed = false ∧ 0 < b.missiles

/-- What one frame may do to a structure: identity and position are kept and
destruction is never undone. -/
def CityLe (c c2 : City) : Prop :=
  c2.id = c.id ∧ c2.pos = c.pos ∧ (c.destroyed = true → c2.destroyed = true)

/-- What one frame may do to a battery: identity, position and ammo are kept
and destruction is never undone. -/
def BatteryLe (b b2 : Battery) : Prop :=
  b2.id = b.id ∧ b2.pos = b.pos ∧ b2.missiles = b.missiles ∧
    b2.maxMissiles = b.maxMissiles ∧ (b.destroyed = true → b2.destroyed = true)

/-- Invariant of an explosion observed between frames: while it is active its
radius is non-negative, exceeds maxRadius by at most one frame's growthRate,
and while still growing it is at most maxRadius. -/
def expInv (x : Explosion) : Prop :=
  x.active = true → 0 ≤ x.radius ∧ x.radius ≤ x.maxRadius + x.growthRate ∧
    (x.isShrinking = false → x.radius ≤ x.maxRadius)

/-! Helper lemmas. -/

lemma sqrt_eval (a b : ℝ) (hb : 0 ≤ b) (h : b * b = a) : Real.sqrt a = b := by
  rw [← h]
  exact Real.sqrt_mul_self hb

lemma sqrt_810000 : Real.sqrt 810000 = 900 := sqrt_eval _ _ (by norm_num) (by norm_num)

lemma sqrt_1600 : Real.sqrt 1600 = 40 := sqrt_eval _ _ (by norm_num) (by norm_num)

lemma sqrt_2500 : Real.sqrt 2500 = 50 := sqrt_eval _ _ (by norm_num) (by norm_num)

lemma enemy_color_ne : COLORS_ENEMY_MISSILE ≠ COLORS_EXPLOSION := by decide

lemma color_lit_ne : ("#ff4444" : String) ≠ "rgba(255, 255, 255, 0.8)" := by decide

/-- The inner collision fold adds 20 per matching explosion — independently of
the incoming active flag — and returns a false flag iff a match occurred
(or the flag was already false). -/
lemma collide_spec (p : Point) :
    ∀ (exps : List Explosion) (s : ℝ) (a : Bool),
      (exps.foldl (collideStep p) (s, a)).1
          = s + 20 * ((exps.countP fun x => decide (hitTest p x) : ℕ) : ℝ) ∧
      (exps.foldl (collideStep p) (s, a)).2
          = (a && !(exps.any fun x => decide (hitTest p x))) := by
  intro exps
  induction exps with
  | nil => intro s a; simp
  | cons x t ih =>
    intro s a
    by_cases h : hitTest p x
    · have hstep : collideStep p (s, a) x = (s + 20, false) := by simp [collideStep, h]
      have hd : (decide (hitTest p x)) = true := by simp [h]
      constructor
      · rw [List.foldl_cons, hstep, (ih (s + 20) false).1, List.countP_cons, hd]
        push_cast
        norm_num
        ring
      · rw [List.foldl_cons, hstep, (ih (s + 20) false).2, List.any_cons, hd]
        simp
    · have hstep : collideStep p (s, a) x = (s, a) := by simp [collideStep, h]
      have hd : (decide (hitTest p x)) = false := by simp [h]
      constructor
      · rw [List.foldl_cons, hstep, (ih s a).1, List.countP_cons, hd]
        simp
      · rw [List.foldl_cons, hstep, (ih s a).2, List.any_cons, hd]
        simp

/-- The spawn phase changes only the accumulator and the enemy list. -/
lemma spawnPhase_fields (g : Game) (delta : ℝ) (r : Rand) :
    (spawnPhase g delta r).score = g.score ∧
    (spawnPhase g delta r).mode = g.mode ∧
    (spawnPhase g delta r).status = g.status ∧
    (spawnPhase g delta r).cities = g.cities ∧
    (spawnPhase g delta r).batteries = g.batteries ∧
    (spawnPhase g delta r).missiles = g.missiles ∧
    (spawnPhase g delta r).explosions = g.explosions := by
  simp only [spawnPhase]
  split_ifs <;> simp

lemma get?_map_eq {α β : Type} (f : α → β) (l : List α) (i : ℕ) :
    (l.map f).get? i = (l.get? i).map f := by
  simp [List.get?_eq_getElem?, List.getElem?_map]

lemma cityLe_rfl (c : City) : CityLe c c := ⟨rfl, rfl, fun h => h⟩

lemma cityLe_trans {a b c : City} (h1 : CityLe a b) (h2 : CityLe b c) : CityLe a c :=
  ⟨h2.1.trans h1.1, h2.2.1.trans h1.2.1, fun h => h2.2.2 (h1.2.2 h)⟩

lemma batteryLe_rfl (b : Battery) : BatteryLe b b := ⟨rfl, rfl, rfl, rfl, fun h => h⟩

lemma batteryLe_trans {a b c : Battery} (h1 : BatteryLe a b) (h2 : BatteryLe b c) :
    BatteryLe a c :=
  ⟨h2.1.trans h1.1, h2.2.1.trans h1.2.1, h2.2.2.1.trans h1.2.2.1,
    h2.2.2.2.1.trans h1.2.2.2.1, fun h => h2.2.2.2.2 (h1.2.2.2.2 h)⟩

lemma impactCities_get (cs : List City) (ip : Point) (i : ℕ) (c : City)
    (hc : cs.get? i = some c) :
    ∃ c2, (impactCities cs ip).get? i = some c2 ∧ CityLe c c2 ∧
      (c2.destroyed = true ↔
        (c.destroyed = true ∨ (|c.pos.x - ip.x| < 25 ∧ |c.pos.y - ip.y| < 25))) := by
  rw [impactCities, get?_map_eq, hc, Option.map_some']
  by_cases h : |c.pos.x - ip.x| < 25 ∧ |c.pos.y - ip.y| < 25
  · rw [if_pos h]
    exact ⟨_, rfl, ⟨rfl, rfl, fun _ => rfl⟩, by simp [h]⟩
  · rw [if_neg h]
    exact ⟨c, rfl, cityLe_rfl c, by simp [h]⟩

lemma impactBatteries_get (bs : List Battery) (ip : Point) (i : ℕ) (b : Battery)
    (hb : bs.get? i = some b) :
    ∃ b2, (impactBatteries bs ip).get? i = some b2 ∧ BatteryLe b b2 ∧
      (b2.destroyed = true ↔
        (b.destroyed = true ∨ (|b.pos.x - ip.x| < 35 ∧ |b.pos.y - ip.y| < 35))) := by
  rw [impactBatteries, get?_map_eq, hb, Option.map_some']
  by_cases h : |b.pos.x - ip.x| < 35 ∧ |b.pos.y - ip.y| < 35
  · rw [if_pos h]
    exact ⟨_, rfl, ⟨rfl, rfl, rfl, rfl, fun _ => rfl⟩, by simp [h]⟩
  · rw [if_neg h]
    exact ⟨b, rfl, batteryLe_rfl b, by simp [h]⟩

lemma enemyStep_score (scale : ℝ) (st : ESt) (done : List Proj) (e : Proj) :
    ∃ k : ℕ, (enemyStep scale (st, done) e).1.score = st.score + 20 * k := by
  by_cases ha : e.active = false
  · refine ⟨0, ?_⟩
    simp only [enemyStep]
    rw [if_pos ha]
    simp
  · simp only [enemyStep]
    rw [if_neg ha]
    by_cases harr : projDist e ≤ e.speed * scale ∨ projDist e = 0
    · rw [if_pos harr]
      exact ⟨_, (collide_spec e.pos (st.explosions ++ [blastEnemy e.pos scale]) st.score false).1⟩
    · rw [if_neg harr]
      exact ⟨_, (collide_spec _ st.explosions st.score e.active).1⟩

lemma enemyStep_cities (scale : ℝ) (st : ESt) (done : List Proj) (e : Proj) :
    (enemyStep scale (st, done) e).1.cities = st.cities ∨
    (enemyStep scale (st, done) e).1.cities = impactCities st.cities e.pos := by
  by_cases ha : e.active = false
  · left
    simp only [enemyStep]
    rw [if_pos ha]
  · simp only [enemyStep]
    rw [if_neg ha]
    by_cases harr : projDist e ≤ e.speed * scale ∨ projDist e = 0
    · right
      rw [if_pos harr]
    · left
      rw [if_neg harr]

lemma enemyStep_batteries (scale : ℝ) (st : ESt) (done : List Proj) (e : Proj) :
    (enemyStep scale (st, done) e).1.batteries = st.batteries ∨
    (enemyStep scale (st, done) e).1.batteries = impactBatteries st.batteries e.pos := by
  by_cases ha : e.active = false
  · left
    simp only [enemyStep]
    rw [if_pos ha]
  · simp only [enemyStep]
    rw [if_neg ha]
    by_cases harr : projDist e ≤ e.speed * scale ∨ projDist e = 0
    · right
      rw [if_pos harr]
    · left
      rw [if_neg harr]

lemma enemyStep_nonplayer (scale : ℝ) (st : ESt) (done : List Proj) (e : Proj)
    (hall : ∀ x ∈ st.explosions, ¬x.color = COLORS_EXPLOSION) :
    (enemyStep scale (st, done) e).1.score = st.score ∧
    (∀ x ∈ (enemyStep scale (st, done) e).1.explosions, ¬x.color = COLORS_EXPLOSION) := by
  have hext : ∀ x ∈ st.explosions ++ [blastEnemy e.pos scale], ¬x.color = COLORS_EXPLOSION := by
    intro x hx
    rcases List.mem_append.mp hx with hx | hx
    · exact hall x hx
    · rcases List.mem_singleton.mp hx with rfl
      exact fun hcon => enemy_color_ne hcon
  have hcount : ∀ (l : List Explosion) (p : Point),
      (∀ x ∈ l, ¬x.color = COLORS_EXPLOSION) →
      (l.countP fun x => decide (hitTest p x)) = 0 := by
    intro l p hl
    rw [List.countP_eq_zero]
    intro x hx
    simp only [decide_eq_true_eq]
    exact fun ht => hl x hx ht.1
  by_cases ha : e.active = false
  · constructor
    · simp only [enemyStep]
      rw [if_pos ha]
    · simp only [enemyStep]
      rw [if_pos ha]
      exact hall
  · simp only [enemyStep]
    rw [if_neg ha]
    by_cases harr : projDist e ≤ e.speed * scale ∨ projDist e = 0
    · rw [if_pos harr]
      constructor
      · rw [(collide_spec e.pos (st.explosions ++ [blastEnemy e.pos scale]) st.score false).1,
          hcount _ e.pos hext]
        simp
      · exact hext
    · rw [if_neg harr]
      constructor
      · rw [(collide_spec _ st.explosions st.score e.active).1, hcount _ _ hall]
        simp
      · exact hall

lemma enemyFold_score (scale : ℝ) :
    ∀ (es : List Proj) (st : ESt) (done : List Proj),
      ∃ n : ℕ, (es.foldl (enemyStep scale) (st, done)).1.score = st.score + 20 * n := by
  intro es
  induction es with
  | nil =>
    intro st done
    exact ⟨0, by simp⟩
  | cons e t ih =>
    intro st done
    obtain ⟨k, hk⟩ := enemyStep_score scale st done e
    rcases hstep : enemyStep scale (st, done) e with ⟨st1, done1⟩
    rw [hstep] at hk
    obtain ⟨n, hn⟩ := ih st1 done1
    refine ⟨k + n, ?_⟩
    rw [List.foldl_cons, hstep, hn, hk]
    push_cast
    ring

lemma enemyFold_cities (scale : ℝ) :
    ∀ (es : List Proj) (st : ESt) (done : List Proj) (i : ℕ) (c : City),
      st.cities.get? i = some c →
      ∃ c2, (es.foldl (enemyStep scale) (st, done)).1.cities.get? i = some c2 ∧ CityLe c c2 := by
  intro es
  induction es with
  | nil =>
    intro st done i c hc
    exact ⟨c, by simpa using hc, cityLe_rfl c⟩
  | cons e t ih =>
    intro st done i c hc
    rcases hstep : enemyStep scale (st, done) e with ⟨st1, done1⟩
    have hcase := enemyStep_cities scale st done e
    rw [hstep] at hcase
    have hmid : ∃ c1, st1.cities.get? i = some c1 ∧ CityLe c c1 := by
      rcases hcase with hcase | hcase
      · exact ⟨c, by rw [hcase]; exact hc, cityLe_rfl c⟩
      · obtain ⟨c1, hc1, hle, _⟩ := impactCities_get st.cities e.pos i c hc
        exact ⟨c1, by rw [hcase]; exact hc1, hle⟩
    obtain ⟨c1, hc1, hle1⟩ := hmid
    obtain ⟨c2, hc2, hle2⟩ := ih st1 done1 i c1 hc1
    rw [List.foldl_cons, hstep]
    exact ⟨c2, hc2, cityLe_trans hle1 hle2⟩

lemma enemyFold_batteries (scale : ℝ) :
    ∀ (es : List Proj) (st : ESt) (done : List Proj) (i : ℕ) (b : Battery),
      st.batteries.get? i = some b →
      ∃ b2, (es.foldl (enemyStep scale) (st, done)).1.batteries.get? i = some b2 ∧
        BatteryLe b b2 := by
  intro es
  induction es with
  | nil =>
    intro st done i b hb
    exact ⟨b, by simpa using hb, batteryLe_rfl b⟩
  | cons e t ih =>
    intro st done i b hb
    rcases hstep : enemyStep scale (st, done) e with ⟨st1, done1⟩
    have hcase := enemyStep_batteries scale st done e
    rw [hstep] at hcase
    have hmid : ∃ b1, st1.batteries.get? i = some b1 ∧ BatteryLe b b1 := by
      rcases hcase with hcase | hcase
      · exact ⟨b, by rw [hcase]; exact hb, batteryLe_rfl b⟩
      · obtain ⟨b1, hb1, hle, _⟩ := impactBatteries_get st.batteries e.pos i b hb
        exact ⟨b1, by rw [hcase]; exact hb1, hle⟩
    obtain ⟨b1, hb1, hle1⟩ := hmid
    obtain ⟨b2, hb2, hle2⟩ := ih st1 done1 i b1 hb1
    rw [List.foldl_cons, hstep]
    exact ⟨b2, hb2, batteryLe_trans hle1 hle2⟩

lemma enemyFold_nonplayer (scale : ℝ) :
    ∀ (es : List Proj) (st : ESt) (done : List Proj),
      (∀ x ∈ st.explosions, ¬x.color = COLORS_EXPLOSION) →
      (es.foldl (enemyStep scale) (st, done)).1.score = st.score := by
  intro es
  induction es with
  | nil =>
    intro st done _
    simp
  | cons e t ih =>
    intro st done hall
    obtain ⟨hsc, hall1⟩ := enemyStep_nonplayer scale st done e hall
    rcases hstep : enemyStep scale (st, done) e with ⟨st1, done1⟩
    rw [hstep] at hsc hall1
    rw [List.foldl_cons, hstep, ih st1 done1 hall1, hsc]

/-- The frame function, rewritten without its PLAYING guard. -/
lemma update_playing_eq (g : Game) (delta : ℝ) (r : Rand)
    (h : g.status = Status.PLAYING) :
    update g delta r =
      (let scale := delta / 16.67
       let g1 := spawnPhase g delta r
       let mres := g1.missiles.foldl (missileStep (powerMult g1.mode) scale) ([], g1.explosions)
       let eres := g1.enemies.foldl (enemyStep scale)
           ({ cities := g1.cities, batteries := g1.batteries,
              explosions := mres.2, score := g1.score }, [])
       let st := eres.1
       let exps := (st.explosions.map explosionStep).filter (fun x => x.active)
       let ms := mres.1.filter (fun m => m.active)
       let es := eres.2.filter (fun e => e.active)
       { g1 with score := st.score
                 cities := st.cities
                 batteries := st.batteries
                 missiles := ms
                 enemies := es
                 explosions := exps
                 status := checkStatus st.score st.batteries es exps }) := by
  simp only [update]
  rw [if_neg (fun hh => hh h)]

lemma update_status_own (g : Game) (delta : ℝ) (r : Rand)
    (h : g.status = Status.PLAYING) :
    (update g delta r).status
      = checkStatus (update g delta r).score (update g delta r).batteries
          (update g delta r).enemies (update g delta r).explosions := by
  rw [update_playing_eq g delta r h]

lemma update_score_eq (g : Game) (delta : ℝ) (r : Rand)
    (h : g.status = Status.PLAYING) :
    (update g delta r).score =
      ((spawnPhase g delta r).enemies.foldl (enemyStep (delta / 16.67))
        ({ cities := (spawnPhase g delta r).cities,
           batteries := (spawnPhase g delta r).batteries,
           explosions := ((spawnPhase g delta r).missiles.foldl
               (missileStep (powerMult (spawnPhase g delta r).mode) (delta / 16.67))
               ([], (spawnPhase g delta r).explosions)).2,
           score := (spawnPhase g delta r).score }, [])).1.score := by
  rw [update_playing_eq g delta r h]

lemma update_cities_eq (g : Game) (delta : ℝ) (r : Rand)
    (h : g.status = Status.PLAYING) :
    (update g delta r).cities =
      ((spawnPhase g delta r).enemies.foldl (enemyStep (delta / 16.67))
        ({ cities := (spawnPhase g delta r).cities,
           batteries := (spawnPhase g delta r).batteries,
           explosions := ((spawnPhase g delta r).missiles.foldl
               (missileStep (powerMult (spawnPhase g delta r).mode) (delta / 16.67))
               ([], (spawnPhase g delta r).explosions)).2,
           score := (spawnPhase g delta r).score }, [])).1.cities := by
  rw [update_playing_eq g delta r h]

lemma update_batteries_eq (g : Game) (delta : ℝ) (r : Rand)
    (h : g.status = Status.PLAYING) :
    (update g delta r).batteries =
      ((spawnPhase g delta r).enemies.foldl (enemyStep (delta / 16.67))
        ({ cities := (spawnPhase g delta r).cities,
           batteries := (spawnPhase g delta r).batteries,
           explosions := ((spawnPhase g delta r).missiles.foldl
               (missileStep (powerMult (spawnPhase g delta r).mode) (delta / 16.67))
               ([], (spawnPhase g delta r).explosions)).2,
           score := (spawnPhase g delta r).score }, [])).1.batteries := by
  rw [update_playing_eq g delta r h]

lemma checkStatus_spec (s : ℝ) (bs : List Battery) (es : List Proj)
    (xs : List Explosion) :
    (checkStatus s bs es xs = Status.WON ↔ 1000 ≤ s) ∧
    (checkStatus s bs es xs = Status.LOST ↔
      (¬(1000 ≤ s) ∧ (bs.filter (fun b => !b.destroyed)).length = 0 ∧ es = [] ∧ xs = [])) ∧
    (¬(1000 ≤ s) → xs ≠ [] → checkStatus s bs es xs = Status.PLAYING) := by
  have hwin : (s ≥ WIN_SCORE) = (1000 ≤ s) := by rw [WIN_SCORE]
  by_cases h1 : (1000 : ℝ) ≤ s
  · have hc : checkStatus s bs es xs = Status.WON := by
      rw [checkStatus, if_pos (by rw [hwin]; exact h1)]
    rw [hc]
    refine ⟨⟨fun _ => h1, fun _ => rfl⟩, ?_, fun hcon => absurd h1 hcon⟩
    constructor
    · intro hcon
      exact Status.noConfusion hcon
    · intro hcon
      exact absurd h1 hcon.1
  · by_cases h2 : (bs.filter (fun b => !b.destroyed)).length = 0 ∧ es.length = 0 ∧ xs.length = 0
    · have hc : checkStatus s bs es xs = Status.LOST := by
        rw [checkStatus, if_neg (by rw [hwin]; exact h1), if_pos h2]
      rw [hc]
      refine ⟨?_, ?_, ?_⟩
      · constructor
        · intro hcon
          exact Status.noConfusion hcon
        · intro hcon
          exact absurd hcon h1
      · constructor
        · intro _
          exact ⟨h1, h2.1, List.length_eq_zero.mp h2.2.1, List.length_eq_zero.mp h2.2.2⟩
        · intro _
          rfl
      · intro _ hxs
        exact absurd (List.length_eq_zero.mp h2.2.2) hxs
    · have hc : checkStatus s bs es xs = Status.PLAYING := by
        rw [checkStatus, if_neg (by rw [hwin]; exact h1), if_neg h2]
      rw [hc]
      refine ⟨?_, ?_, fun _ _ => rfl⟩
      · constructor
        · intro hcon
          exact Status.noConfusion hcon
        · intro hcon
          exact absurd hcon h1
      · constructor
        · intro hcon
          exact Status.noConfusion hcon
        · intro hcon
          exact absurd ⟨hcon.2.1, by rw [hcon.2.2.1]; rfl, by rw [hcon.2.2.2]; rfl⟩ h2

/-! Battery-selection fold lemmas. -/

lemma selectStep_cases (tx : ℝ) (acc : Option (Battery × ℝ)) (x : Battery) :
    (¬elig x ∧ selectStep tx acc x = acc) ∨
    (elig x ∧ acc = none ∧ selectStep tx acc x = some (x, |x.pos.x - tx|)) ∨
    (elig x ∧ ∃ p0, acc = some p0 ∧ |x.pos.x - tx| < p0.2 ∧
        selectStep tx acc x = some (x, |x.pos.x - tx|)) ∨
    (elig x ∧ ∃ p0, acc = some p0 ∧ ¬(|x.pos.x - tx| < p0.2) ∧
        selectStep tx acc x = acc) := by
  by_cases he : elig x
  · cases acc with
    | none =>
      refine Or.inr (Or.inl ⟨he, rfl, ?_⟩)
      simp only [selectStep]
      rw [if_pos he]
    | some p0 =>
      by_cases hlt : |x.pos.x - tx| < p0.2
      · refine Or.inr (Or.inr (Or.inl ⟨he, p0, rfl, hlt, ?_⟩))
        simp only [selectStep]
        rw [if_pos he]
        simp only [if_pos hlt]
      · refine Or.inr (Or.inr (Or.inr ⟨he, p0, rfl, hlt, ?_⟩))
        simp only [selectStep]
        rw [if_pos he]
        simp only [if_neg hlt]
  · refine Or.inl ⟨he, ?_⟩
    simp only [selectStep]
    rw [if_neg he]

lemma selectFold_of_none (tx : ℝ) :
    ∀ (l : List Battery), (∀ b ∈ l, ¬elig b) →
      ∀ acc, l.foldl (selectStep tx) acc = acc := by
  intro l
  induction l with
  | nil => intro _ acc; rfl
  | cons x t ih =>
    intro hall acc
    rw [List.foldl_cons]
    have hx : ¬elig x := hall x (List.mem_cons_self x t)
    have hstep : selectStep tx acc x = acc := by
      simp only [selectStep]
      rw [if_neg hx]
    rw [hstep]
    exact ih (fun b hb => hall b (List.mem_cons_of_mem x hb)) acc

lemma selectFold_none (tx : ℝ) :
    ∀ (l : List Battery) (acc : Option (Battery × ℝ)),
      l.foldl (selectStep tx) acc = none → acc = none ∧ ∀ b ∈ l, ¬elig b := by
  intro l
  induction l with
  | nil =>
    intro acc h
    exact ⟨h, by simp⟩
  | cons x t ih =>
    intro acc h
    rw [List.foldl_cons] at h
    obtain ⟨h1, h2⟩ := ih _ h
    rcases selectStep_cases tx acc x with ⟨hne, heq⟩ | ⟨he, hA, heq⟩ |
      ⟨he, p0, hA, hlt, heq⟩ | ⟨he, p0, hA, hnlt, heq⟩
    · rw [heq] at h1
      refine ⟨h1, ?_⟩
      intro b hb
      rcases List.mem_cons.mp hb with rfl | hbt
      · exact hne
      · exact h2 b hbt
    · rw [heq] at h1
      cases h1
    · rw [heq] at h1
      cases h1
    · rw [heq] at h1
      rw [h1] at hA
      cases hA

lemma selectFold_some (tx : ℝ) :
    ∀ (l : List Battery) (acc : Option (Battery × ℝ)) (b : Battery) (d : ℝ),
      l.foldl (selectStep tx) acc = some (b, d) →
      (acc = some (b, d) ∨ (b ∈ l ∧ elig b ∧ d = |b.pos.x - tx|)) ∧
      (∀ b2 ∈ l, elig b2 → d ≤ |b2.pos.x - tx|) ∧
      (∀ p : Battery × ℝ, acc = some p → d ≤ p.2) := by
  intro l
  induction l with
  | nil =>
    intro acc b d h
    rw [List.foldl_nil] at h
    refine ⟨Or.inl h, by simp, ?_⟩
    intro p hp
    rw [h] at hp
    rw [← Option.some.inj hp]
  | cons x t ih =>
    intro acc b d h
    rw [List.foldl_cons] at h
    obtain ⟨hprop, hmin, hacc1⟩ := ih _ b d h
    rcases selectStep_cases tx acc x with ⟨hne, heq⟩ | ⟨he, hA, heq⟩ |
      ⟨he, p0, hA, hlt, heq⟩ | ⟨he, p0, hA, hnlt, heq⟩
    · refine ⟨?_, ?_, ?_⟩
      · rcases hprop with h1 | h1
        · left
          rw [heq] at h1
          exact h1
        · exact Or.inr ⟨List.mem_cons_of_mem x h1.1, h1.2⟩
      · intro b2 hb2 he2
        rcases List.mem_cons.mp hb2 with rfl | hbt
        · exact absurd he2 hne
        · exact hmin b2 hbt he2
      · intro p hp
        apply hacc1
        rw [heq, hp]
    · refine ⟨?_, ?_, ?_⟩
      · rcases hprop with h1 | h1
        · right
          rw [heq] at h1
          have h2 : (x, |x.pos.x - tx|) = (b, d) := Option.some.inj h1
          have hxb : x = b := congrArg Prod.fst h2
          have hdd : |x.pos.x - tx| = d := congrArg Prod.snd h2
          subst hxb
          exact ⟨List.mem_cons_self x t, he, hdd.symm⟩
        · exact Or.inr ⟨List.mem_cons_of_mem x h1.1, h1.2⟩
      · intro b2 hb2 he2
        rcases List.mem_cons.mp hb2 with rfl | hbt
        · exact hacc1 (b2, |b2.pos.x - tx|) heq
        · exact hmin b2 hbt he2
      · intro p hp
        rw [hp] at hA
        cases hA
    · refine ⟨?_, ?_, ?_⟩
      · rcases hprop with h1 | h1
        · right
          rw [heq] at h1
          have h2 : (x, |x.pos.x - tx|) = (b, d) := Option.some.inj h1
          have hxb : x = b := congrArg Prod.fst h2
          have hdd : |x.pos.x - tx| = d := congrArg Prod.snd h2
          subst hxb
          exact ⟨List.mem_cons_self x t, he, hdd.symm⟩
        · exact Or.inr ⟨List.mem_cons_of_mem x h1.1, h1.2⟩
      · intro b2 hb2 he2
        rcases List.mem_cons.mp hb2 with rfl | hbt
        · exact hacc1 (b2, |b2.pos.x - tx|) heq
        · exact hmin b2 hbt he2
      · intro p hp
        rw [hA] at hp
        have hpp := Option.some.inj hp
        have hd : d ≤ |x.pos.x - tx| := hacc1 (x, |x.pos.x - tx|) heq
        rw [← hpp]
        exact le_of_lt (lt_of_le_of_lt hd hlt)
    · refine ⟨?_, ?_, ?_⟩
      · rcases hprop with h1 | h1
        · left
          rw [heq] at h1
          exact h1
        · exact Or.inr ⟨List.mem_cons_of_mem x h1.1, h1.2⟩
      · intro b2 hb2 he2
        rcases List.mem_cons.mp hb2 with rfl | hbt
        · have hd0 : d ≤ p0.2 := hacc1 p0 (by rw [heq, hA])
          exact le_trans hd0 (not_lt.mp hnlt)
        · exact hmin b2 hbt he2
      · intro p hp
        apply hacc1
        rw [heq, hp]

/-! Claim theorems. -/

/-- C1 (amended): in the per-threat collision fold, the explosion's active
flag is what gets checked — the threat's own active flag is never consulted
(the final score does not depend on the incoming flag at all) — so every
matching active player-class explosion adds 20: the score grows by 20 times
the number of matching explosions, and the threat's flag comes out false
iff it was already false or at least one explosion matched. -/
theorem C1_thm (p : Point) (exps : List Explosion) (s : ℝ) (a : Bool) :
    (exps.foldl (collideStep p) (s, a)).1
        = s + 20 * ((exps.countP fun x => decide (hitTest p x) : ℕ) : ℝ) ∧
    (exps.foldl (collideStep p) (s, a)).2
        = (a && !(exps.any fun x => decide (hitTest p x))) :=
  collide_spec p exps s a

/-- C1 counterexample: a single threat lying inside two overlapping active
player blasts is scored twice in one frame — the score rises from 0 to 40,
refuting the claimed at-most-20-per-threat-per-frame bound. -/
theorem C1_counterexample :
    gDouble.score = 0 ∧ gDouble.enemies.length = 1 ∧
    (update gDouble 16.67 rand0).score = 40 ∧ ¬((40 : ℝ) - 0 ≤ 20) := by
  refine ⟨rfl, rfl, ?_, by norm_num⟩
  norm_num [update, gDouble, rand0, spawnPhase, spawnInterval, spawnTargets, eSlow, exDouble,
    missileStep, enemyStep, collideStep, hitTest, impactCities, impactBatteries, blastEnemy,
    blastPlayer, INITIAL_BATTERIES, INITIAL_CITIES, max_def, sqrt_810000, Real.sqrt_one]

/-- C2 (amended): the spawn scheduler adds the frame delta to the accumulator
and fires exactly when it exceeds max(500, 2000 - (score/100)*100) — real
division with no floor (this equals max(500, 2000 - score)); on firing the
accumulator resets to 0 and, if the pool of non-destroyed cities and
batteries is empty, no threat is appended and no error occurs. -/
theorem C2_thm (g : Game) (delta : ℝ) (r : Rand) :
    spawnInterval g.score = max 500 (2000 - g.score / 100 * 100) ∧
    (g.spawnTimer + delta > spawnInterval g.score →
      (spawnPhase g delta r).spawnTimer = 0 ∧
      (spawnTargets g.cities g.batteries = [] →
        (spawnPhase g delta r).enemies = g.enemies) ∧
      (spawnTargets g.cities g.batteries ≠ [] →
        (spawnPhase g delta r).enemies
          = g.enemies ++ [spawnedEnemy (speedMult g.mode) r (spawnTargets g.cities g.batteries)])) ∧
    (¬(g.spawnTimer + delta > spawnInterval g.score) →
      spawnPhase g delta r = { g with spawnTimer := g.spawnTimer + delta }) ∧
    (g.status = Status.PLAYING →
      (update g delta r).spawnTimer = (spawnPhase g delta r).spawnTimer) := by
  refine ⟨rfl, ?_, ?_, ?_⟩
  · intro h
    simp only [spawnPhase, if_pos h]
    refine ⟨by split_ifs <;> rfl, ?_, ?_⟩
    · intro ht
      rw [if_neg]
      simp [ht]
    · intro ht
      rw [if_pos]
      exact List.length_pos.mpr ht
  · intro h
    simp only [spawnPhase, if_neg h]
  · intro h
    simp only [update]
    rw [if_neg (fun hh => hh h)]

/-- C2 witness: accumulator 0 plus delta 2001 exceeds the interval 2000 at
score 0, so a spawn fires: the accumulator resets and one threat appears. -/
theorem C2_witness :
    (spawnPhase gFresh 2001 rand0).spawnTimer = 0 ∧
    (spawnPhase gFresh 2001 rand0).enemies.length = 1 := by
  have h := (C2_thm gFresh 2001 rand0).2.1
    (by norm_num [gFresh, spawnInterval, max_def])
  refine ⟨h.1, ?_⟩
  rw [h.2.2 (by simp [spawnTargets, gFresh, INITIAL_CITIES, INITIAL_BATTERIES])]
  simp [gFresh]

/-- C2 counterexample: at score 20 the code's interval is 1980 while the
claimed floor formula gives 2000; with the accumulator reaching 1990 the
code spawns (and resets the accumulator) even though the claimed formula
says the accumulator has not yet exceeded the interval. -/
theorem C2_counterexample :
    spawnInterval 20 = 1980 ∧ specSpawnInterval 20 = 2000 ∧
    gScore20.spawnTimer + 1990 > spawnInterval gScore20.score ∧
    ¬(gScore20.spawnTimer + 1990 > specSpawnInterval gScore20.score) ∧
    (spawnPhase gScore20 1990 rand0).spawnTimer = 0 ∧
    (spawnPhase gScore20 1990 rand0).enemies.length = 1 := by
  have hfl : (⌊(20 : ℝ) / 100⌋ : ℤ) = 0 := by
    rw [Int.floor_eq_zero_iff]
    constructor <;> norm_num
  have h1 : spawnInterval 20 = 1980 := by norm_num [spawnInterval, max_def]
  have h2 : specSpawnInterval 20 = 2000 := by
    rw [specSpawnInterval, hfl]
    norm_num [max_def]
  have hfire : gScore20.spawnTimer + 1990 > spawnInterval gScore20.score := by
    show (0 : ℝ) + 1990 > spawnInterval 20
    rw [h1]
    norm_num
  have htl : (spawnTargets gScore20.cities gScore20.batteries).length > 0 := by
    simp [spawnTargets, gScore20, INITIAL_CITIES, INITIAL_BATTERIES]
  have hph1 : (spawnPhase gScore20 1990 rand0).spawnTimer = 0 := by
    simp only [spawnPhase]
    rw [if_pos hfire, if_pos htl]
  have hph2 : (spawnPhase gScore20 1990 rand0).enemies.length = 1 := by
    simp only [spawnPhase]
    rw [if_pos hfire, if_pos htl]
    simp [gScore20]
  refine ⟨h1, h2, hfire, ?_, hph1, hph2⟩
  show ¬((0 : ℝ) + 1990 > specSpawnInterval 20)
  rw [h2]
  norm_num

/-- C5: the explosion lifecycle — while not shrinking the radius grows by
growthRate and the shrinking flag turns on exactly when the new radius has
reached maxRadius; while shrinking the radius falls by growthRate * 0.5 and
the explosion deactivates exactly when the new radius reaches 0; the
between-frames invariant (radius non-negative and at most one growthRate
above maxRadius while active) is preserved by the step and holds for every
freshly spawned player or threat blast. -/
theorem C5_thm (x : Explosion) (t p : Point) (mo : GameMode) (s : ℝ) :
    (x.active = true → x.isShrinking = false →
      (explosionStep x).radius = x.radius + x.growthRate ∧
      ((explosionStep x).isShrinking = true ↔ x.maxRadius ≤ x.radius + x.growthRate) ∧
      (explosionStep x).active = true) ∧
    (x.active = true → x.isShrinking = true →
      (explosionStep x).radius = x.radius - x.growthRate * 0.5 ∧
      ((explosionStep x).active = false ↔ x.radius - x.growthRate * 0.5 ≤ 0)) ∧
    (0 ≤ x.growthRate → expInv x → expInv (explosionStep x)) ∧
    (0 ≤ s → expInv (blastPlayer t (powerMult mo) s)) ∧
    (0 ≤ s → expInv (blastEnemy p s)) := by
  refine ⟨?_, ?_, ?_, ?_, ?_⟩
  · intro ha hs
    by_cases hge : x.radius + x.growthRate ≥ x.maxRadius
    · have hstep : explosionStep x
          = { x with radius := x.radius + x.growthRate, isShrinking := true } := by
        simp [explosionStep, ha, hs, hge]
      rw [hstep]
      exact ⟨rfl, ⟨fun _ => hge, fun _ => rfl⟩, ha⟩
    · have hstep : explosionStep x = { x with radius := x.radius + x.growthRate } := by
        simp [explosionStep, ha, hs, hge]
      rw [hstep]
      refine ⟨rfl, ?_, ha⟩
      show (x.isShrinking = true) ↔ _
      rw [hs]
      exact ⟨fun hcon => Bool.noConfusion hcon, fun hmp => absurd hmp hge⟩
  · intro ha hs
    by_cases hle : x.radius - x.growthRate * 0.5 ≤ 0
    · have hstep : explosionStep x
          = { x with radius := x.radius - x.growthRate * 0.5, active := false } := by
        simp [explosionStep, ha, hs, hle]
      rw [hstep]
      exact ⟨rfl, ⟨fun _ => hle, fun _ => rfl⟩⟩
    · have hstep : explosionStep x
          = { x with radius := x.radius - x.growthRate * 0.5 } := by
        simp [explosionStep, ha, hs, hle]
      rw [hstep]
      refine ⟨rfl, ?_⟩
      show (x.active = false) ↔ _
      rw [ha]
      exact ⟨fun hcon => Bool.noConfusion hcon, fun hmp => absurd hmp hle⟩
  · intro hg hinv
    have hg2 : (0 : ℝ) ≤ x.growthRate * 0.5 := mul_nonneg hg (by norm_num)
    cases hxa : x.active with
    | false =>
      have hstep : explosionStep x = x := by simp [explosionStep, hxa]
      rw [hstep]
      exact hinv
    | true =>
      have hx := hinv hxa
      cases hxs : x.isShrinking with
      | false =>
        have hxmax := hx.2.2 hxs
        by_cases hge : x.radius + x.growthRate ≥ x.maxRadius
        · have hstep : explosionStep x
              = { x with radius := x.radius + x.growthRate, isShrinking := true } := by
            simp [explosionStep, hxa, hxs, hge]
          rw [hstep]
          intro _
          refine ⟨?_, ?_, fun hcon => Bool.noConfusion hcon⟩
          · show 0 ≤ x.radius + x.growthRate
            linarith [hx.1]
          · show x.radius + x.growthRate ≤ x.maxRadius + x.growthRate
            linarith
        · have hstep : explosionStep x = { x with radius := x.radius + x.growthRate } := by
            simp [explosionStep, hxa, hxs, hge]
          rw [hstep]
          intro _
          push_neg at hge
          refine ⟨?_, ?_, ?_⟩
          · show 0 ≤ x.radius + x.growthRate
            linarith [hx.1]
          · show x.radius + x.growthRate ≤ x.maxRadius + x.growthRate
            linarith
          · intro _
            show x.radius + x.growthRate ≤ x.maxRadius
            linarith
      | true =>
        by_cases hle : x.radius - x.growthRate * 0.5 ≤ 0
        · have hstep : explosionStep x
              = { x with radius := x.radius - x.growthRate * 0.5, active := false } := by
            simp [explosionStep, hxa, hxs, hle]
          rw [hstep]
          intro hcon
          exact Bool.noConfusion hcon
        · have hstep : explosionStep x
              = { x with radius := x.radius - x.growthRate * 0.5 } := by
            simp [explosionStep, hxa, hxs, hle]
          rw [hstep]
          intro _
          push_neg at hle
          have hxm := hx.2.1
          refine ⟨?_, ?_, ?_⟩
          · show 0 ≤ x.radius - x.growthRate * 0.5
            linarith
          · show x.radius - x.growthRate * 0.5 ≤ x.maxRadius + x.growthRate
            linarith
          · intro hcon
            rw [hxs] at hcon
            exact Bool.noConfusion hcon
  · intro hs
    have hpm : (1 : ℝ) ≤ powerMult mo := by
      cases mo <;> norm_num [powerMult]
    have hgr : (0 : ℝ) ≤ 3.0 * s := mul_nonneg (by norm_num) hs
    have hmr : (96 : ℝ) ≤ 96 * powerMult mo := by nlinarith
    intro _
    refine ⟨?_, ?_, ?_⟩
    · show (0 : ℝ) ≤ 2
      norm_num
    · show (2 : ℝ) ≤ 96 * powerMult mo + 3.0 * s
      linarith
    · intro _
      show (2 : ℝ) ≤ 96 * powerMult mo
      linarith
  · intro hs
    have hgr : (0 : ℝ) ≤ 2.4 * s := mul_nonneg (by norm_num) hs
    intro _
    refine ⟨?_, ?_, ?_⟩
    · show (0 : ℝ) ≤ 2
      norm_num
    · show (2 : ℝ) ≤ 36 + 2.4 * s
      linarith
    · intro _
      show (2 : ℝ) ≤ 36
      norm_num

/-- C5 witness: a freshly spawned threat blast satisfies the invariant, and
still satisfies it after one lifecycle step. -/
theorem C5_witness :
    expInv (blastEnemy { x := 0, y := 0 } 1) ∧
    expInv (explosionStep (blastEnemy { x := 0, y := 0 } 1)) := by
  have hinv := (C5_thm (blastEnemy { x := 0, y := 0 } 1)
      { x := 0, y := 0 } { x := 0, y := 0 } GameMode.LOW 1).2.2.2.2 (by norm_num)
  refine ⟨hinv, ?_⟩
  exact (C5_thm (blastEnemy { x := 0, y := 0 } 1)
      { x := 0, y := 0 } { x := 0, y := 0 } GameMode.LOW 1).2.2.1
    (by norm_num [blastEnemy]) hinv

/-- C7: startGame produces the same fresh state regardless of the prior
session state — batteries restored to full ammo and non-destroyed, cities
non-destroyed, score 0, all dynamic collections empty, spawn accumulator 0,
status PLAYING with the requested mode — hence it is idempotent. -/
theorem C7_thm (g g2 : Game) (m : GameMode) :
    startGame g m = startGame g2 m ∧
    (startGame g m).score = 0 ∧
    (startGame g m).status = Status.PLAYING ∧
    (startGame g m).mode = m ∧
    (startGame g m).missiles = [] ∧
    (startGame g m).enemies = [] ∧
    (startGame g m).explosions = [] ∧
    (startGame g m).spawnTimer = 0 ∧
    (∀ b ∈ (startGame g m).batteries, b.missiles = b.maxMissiles ∧ b.destroyed = false) ∧
    (∀ c ∈ (startGame g m).cities, c.destroyed = false) ∧
    startGame (startGame g m) m = startGame g m := by
  refine ⟨rfl, rfl, rfl, rfl, rfl, rfl, rfl, rfl, ?_, ?_, rfl⟩
  · intro b hb
    simp only [startGame, INITIAL_BATTERIES, List.map_cons, List.map_nil,
      List.mem_cons, List.not_mem_nil, or_false] at hb
    rcases hb with h | h | h <;> subst h <;> exact ⟨rfl, rfl⟩
  · intro c hc
    simp only [startGame, INITIAL_CITIES, List.map_cons, List.map_nil,
      List.mem_cons, List.not_mem_nil, or_false] at hc
    rcases hc with h | h | h | h <;> subst h <;> rfl

/-- C7 witness: starting over a dirty mid-game state yields score 0 and the
same state as starting twice. -/
theorem C7_witness :
    (startGame gDouble GameMode.HIGH).score = 0 ∧
    startGame (startGame gDouble GameMode.HIGH) GameMode.HIGH
      = startGame gDouble GameMode.HIGH :=
  ⟨(C7_thm gDouble gDouble GameMode.HIGH).2.1,
   (C7_thm gDouble gDouble GameMode.HIGH).2.2.2.2.2.2.2.2.2.2⟩

/-- C3: one kinematics step for an active missile or threat — with
moveDistance = speed * (deltaTimeMs / 16.67) and distance the Euclidean
distance to the target — deactivates the entity without moving it when
distance ≤ moveDistance or distance = 0 (in particular immediately when
pos = target), and otherwise advances pos by exactly
(direction / distance) * moveDistance. -/
theorem C3_thm (delta pm : ℝ) (ms : List Proj) (ex : List Explosion) (st : ESt)
    (done : List Proj) (m : Proj) (hm : m.active = true) :
    (projDist m ≤ projMove m delta ∨ projDist m = 0 →
      missileStep pm (delta / 16.67) (ms, ex) m
        = (ms ++ [{ m with active := false }],
           ex ++ [blastPlayer m.target pm (delta / 16.67)])) ∧
    (¬(projDist m ≤ projMove m delta ∨ projDist m = 0) →
      missileStep pm (delta / 16.67) (ms, ex) m = (ms ++ [projAdvanced m delta], ex)) ∧
    (m.pos = m.target →
      missileStep pm (delta / 16.67) (ms, ex) m
        = (ms ++ [{ m with active := false }],
           ex ++ [blastPlayer m.target pm (delta / 16.67)])) ∧
    (projDist m ≤ projMove m delta ∨ projDist m = 0 →
      (enemyStep (delta / 16.67) (st, done) m).2 = done ++ [{ m with active := false }]) ∧
    (¬(projDist m ≤ projMove m delta ∨ projDist m = 0) →
      ∃ a, (enemyStep (delta / 16.67) (st, done) m).2
        = done ++ [{ projAdvanced m delta with active := a }]) := by
  have hguard : ¬(m.active = false) := by
    rw [hm]
    exact Bool.noConfusion
  have hpt0 : m.pos = m.target → projDist m = 0 := by
    intro hpt
    show Real.sqrt _ = 0
    rw [hpt]
    simp
  have harr : ∀ _ : projDist m ≤ projMove m delta ∨ projDist m = 0,
      missileStep pm (delta / 16.67) (ms, ex) m
        = (ms ++ [{ m with active := false }],
           ex ++ [blastPlayer m.target pm (delta / 16.67)]) := by
    intro hc
    simp only [missileStep]
    rw [if_neg hguard, if_pos hc]
  refine ⟨harr, ?_, fun hpt => harr (Or.inr (hpt0 hpt)), ?_, ?_⟩
  · intro hc
    simp only [missileStep]
    rw [if_neg hguard, if_neg hc]
  · intro hc
    simp only [enemyStep]
    rw [if_neg hguard, if_pos hc]
    have hcol := (collide_spec m.pos
      (st.explosions ++ [blastEnemy m.pos (delta / 16.67)]) st.score false).2
    simp only [hcol, Bool.false_and]
  · intro hc
    simp only [enemyStep]
    rw [if_neg hguard, if_neg hc]
    exact ⟨_, rfl⟩

/-- C3 witness (Scenario B): a missile 50 units from its target with speed 1
and a 16.67 ms frame moves exactly 1 unit along the line toward the target. -/
theorem C3_witness :
    missileStep 1 (16.67 / 16.67) ([], []) mFar
      = ([{ mFar with pos := { x := 1, y := 0 } }], []) := by
  have hd : projDist mFar = 50 := by
    show Real.sqrt _ = 50
    norm_num [mFar, sqrt_2500]
  have hM : projMove mFar 16.67 = 1 := by
    show mFar.speed * _ = 1
    norm_num [mFar]
  have hcond : ¬(projDist mFar ≤ projMove mFar 16.67 ∨ projDist mFar = 0) := by
    rw [hd, hM]
    norm_num
  have h := (C3_thm 16.67 1 [] [] stInitial [] mFar rfl).2.1 hcond
  rw [h]
  show ([projAdvanced mFar 16.67], ([] : List Explosion)) = _
  rw [show projAdvanced mFar 16.67 = { mFar with pos := { x := 1, y := 0 } } by
    simp only [projAdvanced, hd, hM]
    norm_num [mFar]]

/-- C10: on threat arrival both the ground-impact test and the threat blast
use the threat's current position, not its target; concretely, a threat
aimed at the structure at (200, 570) that is detected as arrived while
still at (200, 530) — 40 units short — impacts there, and since 40 ≥ 25
its own targeted structure survives the impact. -/
theorem C10_thm (scale : ℝ) (st : ESt) (done : List Proj) (e : Proj)
    (he : e.active = true)
    (harr : projDist e ≤ e.speed * scale ∨ projDist e = 0) :
    (enemyStep scale (st, done) e).1.cities = impactCities st.cities e.pos ∧
    (enemyStep scale (st, done) e).1.batteries = impactBatteries st.batteries e.pos ∧
    (enemyStep scale (st, done) e).1.explosions = st.explosions ++ [blastEnemy e.pos scale] ∧
    eShort.target = { x := 200, y := 570 } ∧
    (INITIAL_CITIES.get? 0).map City.pos = some eShort.target ∧
    (enemyStep 1 (stInitial, []) eShort).2 = [{ eShort with active := false }] ∧
    ((enemyStep 1 (stInitial, []) eShort).1.cities.get? 0).map City.destroyed = some false := by
  have hguard : ¬(e.active = false) := by
    rw [he]
    exact Bool.noConfusion
  have hmain : enemyStep scale (st, done) e
      = ({ cities := impactCities st.cities e.pos,
           batteries := impactBatteries st.batteries e.pos,
           explosions := st.explosions ++ [blastEnemy e.pos scale],
           score := ((st.explosions ++ [blastEnemy e.pos scale]).foldl
               (collideStep e.pos) (st.score, false)).1 },
         done ++ [{ e with active :=
             ((st.explosions ++ [blastEnemy e.pos scale]).foldl
               (collideStep e.pos) (st.score, false)).2 }]) := by
    simp only [enemyStep]
    rw [if_neg hguard, if_pos harr]
  refine ⟨by rw [hmain], by rw [hmain], by rw [hmain], rfl, rfl, ?_, ?_⟩
  · norm_num [enemyStep, eShort, stInitial, collideStep, hitTest, blastEnemy,
      enemy_color_ne, color_lit_ne, sqrt_1600, COLORS_ENEMY_MISSILE, COLORS_EXPLOSION]
  · norm_num [enemyStep, eShort, stInitial, collideStep, hitTest, blastEnemy,
      impactCities, impactBatteries, INITIAL_CITIES, INITIAL_BATTERIES,
      enemy_color_ne, color_lit_ne, sqrt_1600, COLORS_ENEMY_MISSILE, COLORS_EXPLOSION]

/-- C10 witness: the general arrival clauses applied to the concrete short
threat: the blast is spawned at the threat's current position (200, 530),
not at its target. -/
theorem C10_witness :
    (enemyStep 1 (stInitial, []) eShort).1.explosions
      = [blastEnemy { x := 200, y := 530 } 1] := by
  have harr : projDist eShort ≤ eShort.speed * 1 ∨ projDist eShort = 0 := by
    left
    have hd : projDist eShort = 40 := by
      show Real.sqrt _ = 40
      norm_num [eShort, sqrt_1600]
    rw [hd]
    norm_num [eShort]
  have h := (C10_thm 1 stInitial [] eShort rfl harr).2.2.1
  rw [h]
  rfl

/-- C4: at the end of a PLAYING frame, after all entity updates and pruning,
the status is WON exactly when the new score is at least 1000, LOST exactly
when the score is below 1000 and all batteries are destroyed with no active
threats and no active explosions left, WON wins when both conditions hold
(it is evaluated first), and a remaining active explosion keeps the status
at PLAYING. -/
theorem C4_thm (g : Game) (delta : ℝ) (r : Rand) (h : g.status = Status.PLAYING) :
    ((update g delta r).status = Status.WON ↔ 1000 ≤ (update g delta r).score) ∧
    ((update g delta r).status = Status.LOST ↔
      (¬(1000 ≤ (update g delta r).score) ∧
        ((update g delta r).batteries.filter (fun b => !b.destroyed)).length = 0 ∧
        (update g delta r).enemies = [] ∧ (update g delta r).explosions = [])) ∧
    (1000 ≤ (update g delta r).score → (update g delta r).status = Status.WON) ∧
    (¬(1000 ≤ (update g delta r).score) → (update g delta r).explosions ≠ [] →
      (update g delta r).status = Status.PLAYING) := by
  have hown := update_status_own g delta r h
  have hspec := checkStatus_spec (update g delta r).score (update g delta r).batteries
    (update g delta r).enemies (update g delta r).explosions
  rw [hown]
  exact ⟨hspec.1, hspec.2.1, fun hs => hspec.1.mpr hs, fun hns hne => hspec.2.2 hns hne⟩

/-- C4 witness (Scenario C flavor): a frame of a playing game whose score is
already 1000 ends with status WON. -/
theorem C4_witness : (update gRich 10 rand0).status = Status.WON := by
  have hsc : (update gRich 10 rand0).score = 1000 := by
    norm_num [update, gRich, spawnPhase, spawnInterval, max_def, rand0]
  exact (C4_thm gRich 10 rand0 rfl).2.2.1 (le_of_eq hsc.symm)

/-- C6: the ground-impact resolution is an axis-aligned proximity test —
a structure at index i is destroyed after the impact iff it already was or
both coordinate gaps to the impact point are below 25, a battery likewise
with threshold 35 while its ammo counts are untouched; destruction is
terminal across any frame; and one impact can destroy several structures
at once. -/
theorem C6_thm :
    (∀ (cs : List City) (ip : Point) (i : ℕ) (c : City), cs.get? i = some c →
      ∃ c2, (impactCities cs ip).get? i = some c2 ∧ c2.id = c.id ∧ c2.pos = c.pos ∧
        (c2.destroyed = true ↔
          (c.destroyed = true ∨ (|c.pos.x - ip.x| < 25 ∧ |c.pos.y - ip.y| < 25)))) ∧
    (∀ (bs : List Battery) (ip : Point) (i : ℕ) (b : Battery), bs.get? i = some b →
      ∃ b2, (impactBatteries bs ip).get? i = some b2 ∧ b2.id = b.id ∧ b2.pos = b.pos ∧
        b2.missiles = b.missiles ∧ b2.maxMissiles = b.maxMissiles ∧
        (b2.destroyed = true ↔
          (b.destroyed = true ∨ (|b.pos.x - ip.x| < 35 ∧ |b.pos.y - ip.y| < 35)))) ∧
    (∀ (g : Game) (delta : ℝ) (r : Rand) (i : ℕ) (c : City),
      g.cities.get? i = some c → c.destroyed = true →
      ∃ c2, (update g delta r).cities.get? i = some c2 ∧ c2.destroyed = true) ∧
    (∀ (g : Game) (delta : ℝ) (r : Rand) (i : ℕ) (b : Battery),
      g.batteries.get? i = some b → b.destroyed = true →
      ∃ b2, (update g delta r).batteries.get? i = some b2 ∧ b2.destroyed = true) ∧
    ((impactCities csDemo { x := 5, y := 0 }).countP fun c => c.destroyed) = 2 := by
  refine ⟨?_, ?_, ?_, ?_, ?_⟩
  · intro cs ip i c hc
    obtain ⟨c2, hg, hle, hiff⟩ := impactCities_get cs ip i c hc
    exact ⟨c2, hg, hle.1, hle.2.1, hiff⟩
  · intro bs ip i b hb
    obtain ⟨b2, hg, hle, hiff⟩ := impactBatteries_get bs ip i b hb
    exact ⟨b2, hg, hle.1, hle.2.1, hle.2.2.1, hle.2.2.2.1, hiff⟩
  · intro g delta r i c hc hdc
    by_cases hst : g.status = Status.PLAYING
    · rw [update_cities_eq g delta r hst]
      have hc0 : (spawnPhase g delta r).cities.get? i = some c := by
        rw [(spawnPhase_fields g delta r).2.2.2.1]
        exact hc
      obtain ⟨c2, hg2, hle⟩ := enemyFold_cities (delta / 16.67) (spawnPhase g delta r).enemies
        { cities := (spawnPhase g delta r).cities,
          batteries := (spawnPhase g delta r).batteries,
          explosions := ((spawnPhase g delta r).missiles.foldl
              (missileStep (powerMult (spawnPhase g delta r).mode) (delta / 16.67))
              ([], (spawnPhase g delta r).explosions)).2,
          score := (spawnPhase g delta r).score } [] i c hc0
      exact ⟨c2, hg2, hle.2.2 hdc⟩
    · have hid : update g delta r = g := by
        simp only [update]
        rw [if_pos hst]
      rw [hid]
      exact ⟨c, hc, hdc⟩
  · intro g delta r i b hb hdb
    by_cases hst : g.status = Status.PLAYING
    · rw [update_batteries_eq g delta r hst]
      have hb0 : (spawnPhase g delta r).batteries.get? i = some b := by
        rw [(spawnPhase_fields g delta r).2.2.2.2.1]
        exact hb
      obtain ⟨b2, hg2, hle⟩ := enemyFold_batteries (delta / 16.67) (spawnPhase g delta r).enemies
        { cities := (spawnPhase g delta r).cities,
          batteries := (spawnPhase g delta r).batteries,
          explosions := ((spawnPhase g delta r).missiles.foldl
              (missileStep (powerMult (spawnPhase g delta r).mode) (delta / 16.67))
              ([], (spawnPhase g delta r).explosions)).2,
          score := (spawnPhase g delta r).score } [] i b hb0
      exact ⟨b2, hg2, hle.2.2.2.2 hdb⟩
    · have hid : update g delta r = g := by
        simp only [update]
        rw [if_pos hst]
      rw [hid]
      exact ⟨b, hb, hdb⟩
  · norm_num [impactCities, csDemo, List.countP_cons, abs_sub_lt_iff]

/-- C6 witness: the characterization applied to the initial layout — an
impact at (210, 580) destroys the first structure (gaps 10 and 10), and
ammo of a battery within its 35-box is untouched while it is destroyed. -/
theorem C6_witness :
    ∃ c2, (impactCities INITIAL_CITIES { x := 210, y := 580 }).get? 0 = some c2 ∧
      c2.destroyed = true := by
  obtain ⟨c2, hg, _, _, hiff⟩ :=
    C6_thm.1 INITIAL_CITIES { x := 210, y := 580 } 0
      { id := "c1", pos := { x := 200, y := 570 }, destroyed := false } rfl
  refine ⟨c2, hg, ?_⟩
  rw [hiff]
  right
  constructor <;> rw [abs_sub_lt_iff] <;> constructor <;> norm_num

/-- C8: across one PLAYING frame the score changes by 20 times a natural
number — so it is non-decreasing and moves only in steps of 20 — and when
no player-class blast exists or can be created (no live blasts, no
missiles) it does not change at all. -/
theorem C8_thm (g : Game) (delta : ℝ) (r : Rand) (h : g.status = Status.PLAYING) :
    (∃ n : ℕ, (update g delta r).score = g.score + 20 * n) ∧
    g.score ≤ (update g delta r).score ∧
    ((∀ x ∈ g.explosions, ¬x.color = COLORS_EXPLOSION) → g.missiles = [] →
      (update g delta r).score = g.score) := by
  have hs := update_score_eq g delta r h
  have hfields := spawnPhase_fields g delta r
  have hmain : ∃ n : ℕ, (update g delta r).score = g.score + 20 * n := by
    obtain ⟨n, hn⟩ := enemyFold_score (delta / 16.67) (spawnPhase g delta r).enemies
      { cities := (spawnPhase g delta r).cities,
        batteries := (spawnPhase g delta r).batteries,
        explosions := ((spawnPhase g delta r).missiles.foldl
            (missileStep (powerMult (spawnPhase g delta r).mode) (delta / 16.67))
            ([], (spawnPhase g delta r).explosions)).2,
        score := (spawnPhase g delta r).score } []
    refine ⟨n, ?_⟩
    rw [hs, hn]
    show (spawnPhase g delta r).score + 20 * (n : ℝ) = g.score + 20 * (n : ℝ)
    rw [hfields.1]
  refine ⟨hmain, ?_, ?_⟩
  · obtain ⟨n, hn⟩ := hmain
    rw [hn]
    have hpos : (0 : ℝ) ≤ 20 * (n : ℝ) := by positivity
    linarith
  · intro hall hms
    have hms1 : (spawnPhase g delta r).missiles = [] := by
      rw [hfields.2.2.2.2.2.1, hms]
    have hnp : ∀ x ∈ ((spawnPhase g delta r).missiles.foldl
        (missileStep (powerMult (spawnPhase g delta r).mode) (delta / 16.67))
        ([], (spawnPhase g delta r).explosions)).2, ¬x.color = COLORS_EXPLOSION := by
      rw [hms1]
      simp only [List.foldl_nil]
      intro x hx
      have hx2 : x ∈ (spawnPhase g delta r).explosions := hx
      rw [hfields.2.2.2.2.2.2] at hx2
      exact hall x hx2
    have hz := enemyFold_nonplayer (delta / 16.67) (spawnPhase g delta r).enemies
      { cities := (spawnPhase g delta r).cities,
        batteries := (spawnPhase g delta r).batteries,
        explosions := ((spawnPhase g delta r).missiles.foldl
            (missileStep (powerMult (spawnPhase g delta r).mode) (delta / 16.67))
            ([], (spawnPhase g delta r).explosions)).2,
        score := (spawnPhase g delta r).score } [] hnp
    rw [hs, hz]
    exact hfields.1

/-- C8 witness: a playing frame with no threats and no blasts leaves the
score unchanged at 0. -/
theorem C8_witness : (update gFresh 10 rand0).score = 0 := by
  exact (C8_thm gFresh 10 rand0 rfl).2.2 (by simp [gFresh]) rfl

/-- C9: the launch handler selects an eligible battery (non-destroyed,
ammo > 0) minimizing the horizontal distance to the target, creates a
missile from its position toward the target with speed 5 times the mode's
multiplier, and decrements exactly the batteries carrying the selected id
by 1; with no eligible battery the request is a no-op; under the layout's
unique ids every battery's ammo stays within [0, maxMissiles], and the
frame function never changes ammo counts. -/
theorem C9_thm (bs : List Battery) (mode : GameMode) (t : Point) :
    (selectBest bs t.x = none ↔ ∀ b ∈ bs, ¬(b.destroyed = false ∧ 0 < b.missiles)) ∧
    (selectBest bs t.x = none → handleClick bs mode t = (bs, none)) ∧
    (∀ b d, selectBest bs t.x = some (b, d) →
      b ∈ bs ∧ b.destroyed = false ∧ 0 < b.missiles ∧ d = |b.pos.x - t.x| ∧
      (∀ b2 ∈ bs, b2.destroyed = false → 0 < b2.missiles → d ≤ |b2.pos.x - t.x|) ∧
      (handleClick bs mode t).2
        = some { pos := b.pos, target := t, speed := 5 * speedMult mode, active := true } ∧
      ∀ i, (handleClick bs mode t).1.get? i
        = (bs.get? i).map fun pb =>
            if pb.id = b.id then { pb with missiles := pb.missiles - 1 } else pb) ∧
    ((bs.map Battery.id).Nodup →
      (∀ b2 ∈ bs, 0 ≤ b2.missiles ∧ b2.missiles ≤ b2.maxMissiles) →
      ∀ b2 ∈ (handleClick bs mode t).1, 0 ≤ b2.missiles ∧ b2.missiles ≤ b2.maxMissiles) ∧
    (∀ (g : Game) (delta : ℝ) (r : Rand) (i : ℕ) (b : Battery),
      g.batteries.get? i = some b →
      ∃ b2, (update g delta r).batteries.get? i = some b2 ∧
        b2.missiles = b.missiles ∧ b2.maxMissiles = b.maxMissiles) := by
  refine ⟨?_, ?_, ?_, ?_, ?_⟩
  · constructor
    · intro h
      exact (selectFold_none t.x bs none h).2
    · intro hall
      exact selectFold_of_none t.x bs hall none
  · intro h
    simp only [handleClick, h]
  · intro b d h
    obtain ⟨hprop, hmin, _⟩ := selectFold_some t.x bs none b d h
    have hb : b ∈ bs ∧ elig b ∧ d = |b.pos.x - t.x| := by
      rcases hprop with h1 | h1
      · cases h1
      · exact h1
    refine ⟨hb.1, hb.2.1.1, hb.2.1.2, hb.2.2, fun b2 hb2 hd2 hm2 => hmin b2 hb2 ⟨hd2, hm2⟩,
      ?_, ?_⟩
    · simp only [handleClick, h]
    · intro i
      simp only [handleClick, h]
      exact get?_map_eq _ bs i
  · intro hnd hbounds b2 hb2
    cases hsel : selectBest bs t.x with
    | none =>
      rw [show (handleClick bs mode t).1 = bs by simp only [handleClick, hsel]] at hb2
      exact hbounds b2 hb2
    | some p =>
      obtain ⟨hprop, _, _⟩ := selectFold_some t.x bs none p.1 p.2 hsel
      have hbsel : p.1 ∈ bs ∧ elig p.1 := by
        rcases hprop with h1 | h1
        · cases h1
        · exact ⟨h1.1, h1.2.1⟩
      rw [show (handleClick bs mode t).1
          = bs.map (fun pb => if pb.id = p.1.id then { pb with missiles := pb.missiles - 1 }
              else pb) by simp only [handleClick, hsel]] at hb2
      obtain ⟨pb, hpb, hpb2⟩ := List.mem_map.mp hb2
      by_cases hid : pb.id = p.1.id
      · rw [if_pos hid] at hpb2
        have hpeq : pb = p.1 := List.inj_on_of_nodup_map hnd hpb hbsel.1 hid
        rw [← hpb2]
        have h1 : 0 < pb.missiles := by
          rw [hpeq]
          exact hbsel.2.2
        have h2 := hbounds pb hpb
        constructor
        · show (0 : ℤ) ≤ pb.missiles - 1
          omega
        · show pb.missiles - 1 ≤ pb.maxMissiles
          omega
      · rw [if_neg hid] at hpb2
        rw [← hpb2]
        exact hbounds pb hpb
  · intro g delta r i b hb
    by_cases hst : g.status = Status.PLAYING
    · rw [update_batteries_eq g delta r hst]
      have hb0 : (spawnPhase g delta r).batteries.get? i = some b := by
        rw [(spawnPhase_fields g delta r).2.2.2.2.1]
        exact hb
      obtain ⟨b2, hg2, hle⟩ := enemyFold_batteries (delta / 16.67) (spawnPhase g delta r).enemies
        { cities := (spawnPhase g delta r).cities,
          batteries := (spawnPhase g delta r).batteries,
          explosions := ((spawnPhase g delta r).missiles.foldl
              (missileStep (powerMult (spawnPhase g delta r).mode) (delta / 16.67))
              ([], (spawnPhase g delta r).explosions)).2,
          score := (spawnPhase g delta r).score } [] i b hb0
      exact ⟨b2, hg2, hle.2.2.1, hle.2.2.2.1⟩
    · have hid : update g delta r = g := by
        simp only [update]
        rw [if_pos hst]
      rw [hid]
      exact ⟨b, hb, rfl, rfl⟩

/-- C9 witness: clicking at x = 390 with the initial layout launches from the
battery at x = 400 (horizontal distance 10, the minimum) with the NORMAL
speed multiplier. -/
theorem C9_witness :
    (handleClick INITIAL_BATTERIES GameMode.NORMAL { x := 390, y := 300 }).2
      = some { pos := { x := 400, y := 560 }, target := { x := 390, y := 300 },
               speed := 5 * speedMult GameMode.NORMAL, active := true } := by
  have h100 : |(100 : ℝ) - 390| = 290 := by
    rw [show (100 : ℝ) - 390 = -(290 : ℝ) by norm_num, abs_neg,
      abs_of_nonneg (by norm_num : (0 : ℝ) ≤ 290)]
  have h400 : |(400 : ℝ) - 390| = 10 := by
    rw [show (400 : ℝ) - 390 = (10 : ℝ) by norm_num,
      abs_of_nonneg (by norm_num : (0 : ℝ) ≤ 10)]
  have h700 : |(700 : ℝ) - 390| = 310 := by
    rw [show (700 : ℝ) - 390 = (310 : ℝ) by norm_num,
      abs_of_nonneg (by norm_num : (0 : ℝ) ≤ 310)]
  have hsel : selectBest INITIAL_BATTERIES (390 : ℝ)
      = some ({ id := "b2", pos := { x := 400, y := 560 }, missiles := 40,
                maxMissiles := 40, destroyed := false }, |(400 : ℝ) - 390|) := by
    simp only [selectBest, INITIAL_BATTERIES, List.foldl_cons, List.foldl_nil, selectStep,
      h100, h400, h700]
    norm_num
  have h := ((C9_thm INITIAL_BATTERIES GameMode.NORMAL { x := 390, y := 300 }).2.2.1
    { id := "b2", pos := { x := 400, y := 560 }, missiles := 40,
      maxMissiles := 40, destroyed := false } |(400 : ℝ) - 390| hsel).2.2.2.2.2.1
  exact h

end Xjsj

end
